import Mathlib

/-!
Shallow embedding of the Go file server in src/main.go.

Go strings are modelled as lists of byte values (`List Nat`, each entry a
byte). Handler nondeterminism (wall-clock date, the freshly generated UUID
string, filesystem errors) is made explicit as parameters. The filesystem is
a map from full path bytes to a file status; directory creation is logged.
-/

namespace FileServer

deriving instance DecidableEq for Except

/-- Bytes of an ASCII string literal (every literal used here is ASCII, so
the char code is the byte value). -/
def strA (s : String) : List Nat := s.data.map Char.toNat

/-- Embedding of Go strings.Cut with a single-byte separator: split at the
first occurrence of the separator; `none` when the separator is absent
(Go returns found=false, and both call sites treat that as failure). -/
def cut (s : List Nat) (sep : Nat) : Option (List Nat × List Nat) :=
  match s with
  | [] => none
  | c :: rest =>
    if c = sep then some ([], rest)
    else
      match cut rest sep with
      | some (b, a) => some (c :: b, a)
      | none => none

/-- Value of a byte in the standard base64 alphabet (A-Z a-z 0-9 + /). -/
def b64Val (c : Nat) : Option Nat :=
  if 65 ≤ c ∧ c ≤ 90 then some (c - 65)
  else if 97 ≤ c ∧ c ≤ 122 then some (c - 71)
  else if 48 ≤ c ∧ c ≤ 57 then some (c + 4)
  else if c = 43 then some 62
  else if c = 47 then some 63
  else none

/-- Embedding of Go base64.StdEncoding decoding, quantum by quantum: input
length must be a multiple of 4, the padding byte 61 may appear only in the
last quantum (one or two trailing pads), and any byte outside the alphabet
is rejected. Trailing-bit content is not checked, matching the non-strict
StdEncoding decoder. -/
def b64Chunks : List Nat → Option (List Nat)
  | [] => some []
  | a :: b :: c :: d :: rest =>
    match b64Val a, b64Val b with
    | some va, some vb =>
      if c = 61 then
        if d = 61 ∧ rest = [] then some [va * 4 + vb / 16] else none
      else
        match b64Val c with
        | some vc =>
          if d = 61 then
            if rest = [] then some [va * 4 + vb / 16, (vb % 16) * 16 + vc / 4]
            else none
          else
            match b64Val d with
            | some vd =>
              match b64Chunks rest with
              | some more =>
                some ((va * 4 + vb / 16) :: ((vb % 16) * 16 + vc / 4) ::
                      ((vc % 4) * 64 + vd) :: more)
              | none => none
            | none => none
        | none => none
    | _, _ => none
  | _ => none

/-- Embedding of base64.StdEncoding.DecodeString: the decoder ignores the
newline bytes 10 and 13, then decodes quantum by quantum. -/
def base64Decode (s : List Nat) : Option (List Nat) :=
  b64Chunks (s.filter (fun c => decide (c ≠ 10 ∧ c ≠ 13)))

/-- Digit loop for `decimal`, structurally recursive on a fuel bound that
always exceeds the digit count (one division by ten per step). -/
def decimalCore : Nat → Nat → List Nat → List Nat
  | 0, _, acc => acc
  | fuel + 1, n, acc =>
    if n < 10 then (48 + n) :: acc
    else decimalCore fuel (n / 10) ((48 + n % 10) :: acc)

/-- Decimal rendering of a natural number, as Go fmt %d prints a
nonnegative integer (most significant digit first, no padding). -/
def decimal (n : Nat) : List Nat := decimalCore (n + 1) n []

/-- Go fmt %02d on a nonnegative integer: zero-pad to width two. -/
def pad2 (n : Nat) : List Nat :=
  if n < 10 then [48, 48 + n] else decimal n

/-- Helper for `goExt`, scanning the reversed byte list: stop with empty
result at a path separator, return the suffix once a dot is found. -/
def extAux (acc : List Nat) : List Nat → List Nat
  | [] => []
  | c :: rest =>
    if c = 47 then []
    else if c = 46 then 46 :: acc
    else extAux (c :: acc) rest

/-- Embedding of Go filepath.Ext: the suffix beginning at the final dot in
the final slash-separated element, empty if that element has no dot. -/
def goExt (p : List Nat) : List Nat := extAux [] p.reverse

/-- Helper for `extSpec`: like `extAux` but with no separator handling. -/
def extSpecAux (acc : List Nat) : List Nat → List Nat
  | [] => []
  | c :: rest =>
    if c = 46 then 46 :: acc
    else extSpecAux (c :: acc) rest

/-- Modelled from the spec wording for the extension rule: everything from
the last dot of the filename onward, possibly empty. Compared with `goExt`
(the embedding of filepath.Ext) in the C2 theorem. -/
def extSpec (p : List Nat) : List Nat := extSpecAux [] p.reverse

/-- Split a byte list at slash bytes, keeping empty components, as the
segment view used by path cleaning. -/
def splitOnSlash : List Nat → List (List Nat)
  | [] => [[]]
  | c :: rest =>
    if c = 47 then [] :: splitOnSlash rest
    else
      match splitOnSlash rest with
      | s :: ss => (c :: s) :: ss
      | [] => [[c]]

/-- Join segments with slash bytes (inverse of `splitOnSlash` on
slash-free segments). -/
def joinSlash : List (List Nat) → List Nat
  | [] => []
  | [s] => s
  | s :: rest => s ++ 47 :: joinSlash rest

/-- One segment step of Go path.Clean: drop empty and dot segments, let a
dotdot segment pop the previous real segment (kept when nothing can be
popped and the path is not rooted), push everything else. -/
def cleanStep (rooted : Bool) (stack : List (List Nat)) (seg : List Nat) :
    List (List Nat) :=
  if seg = [] ∨ seg = [46] then stack
  else if seg = [46, 46] then
    match stack with
    | top :: rest => if top = [46, 46] then seg :: top :: rest else rest
    | [] => if rooted then [] else [seg]
  else seg :: stack

/-- Embedding of Go path Clean (Unix rules): collapse repeated slashes,
drop dot segments, resolve dotdot segments, return a dot for an empty
result, keep the leading slash of a rooted path. -/
def clean (p : List Nat) : List Nat :=
  if p = [] then [46]
  else if p.head? = some 47 then
    let out := joinSlash ((splitOnSlash p).foldl (cleanStep true) []).reverse
    if out = [] then [47] else 47 :: out
  else
    let out := joinSlash ((splitOnSlash p).foldl (cleanStep false) []).reverse
    if out = [] then [46] else out

/-- Embedding of Go filepath.Join: drop leading empty elements, join the
rest with slashes and Clean the result; empty when every element is
empty. -/
def goJoin (elems : List (List Nat)) : List Nat :=
  match elems.dropWhile (fun e => decide (e = [])) with
  | [] => []
  | es => clean (joinSlash es)

/-- The configuration record of src/main.go (all fields byte strings). -/
structure Config where
  host : List Nat
  port : List Nat
  uploadDir : List Nat
  accessPrefix : List Nat
  username : List Nat
  password : List Nat

/-- What the upload handler observes of an HTTP request: the method, the
raw Authorization header value (empty when the header is absent, as Go
Header.Get reports it), and the result of FormFile on the field named
file — the filename and content when present, `none` when FormFile fails. -/
structure UploadRequest where
  method : List Nat
  authHeader : List Nat
  formFile : Option (List Nat × List Nat)

/-- Status of a filesystem path as seen by os.Stat and os.Open: present
with content, absent (stat fails with not-exist), permission denied (stat
and open fail with a permission error), or some other I/O error. -/
inductive FileStatus
  | present (content : List Nat)
  | absent
  | permDenied
  | otherErr
deriving DecidableEq

/-- Filesystem state: file contents by full path, plus a log of the
directory paths passed to os.MkdirAll. -/
structure FS where
  files : List Nat → FileStatus
  dirs : List (List Nat)

/-- Record a MkdirAll call (directory creation is idempotent; the model
logs the requested path). -/
def FS.mkdir (fs : FS) (p : List Nat) : FS := { fs with dirs := p :: fs.dirs }

/-- Write content at a path (os.Create truncating corresponds to writing
empty content, io.Copy to writing the full content). -/
def FS.write (fs : FS) (p content : List Nat) : FS :=
  { fs with files := fun q => if q = p then .present content else fs.files q }

/-- An HTTP response as observed by the client. -/
structure Response where
  status : Nat
  headers : List (List Nat × List Nat)
  body : List Nat
deriving DecidableEq

/-- Embedding of Go http.Error: the given status, the message plus a
newline as body (header details of error responses are not modelled). -/
def httpError (msg : List Nat) (code : Nat) : Response :=
  { status := code, headers := [], body := msg ++ [10] }

/-- Embedding of basicAuth from src/main.go lines 44-62: reject an empty
header, cut at the first space byte and require the scheme token Basic,
base64-decode the remainder, cut the decoded bytes at the first colon and
compare both parts with the configured credentials. Each failure carries
its internal message; the function is pure. -/
def basicAuth (authHeader : List Nat) (cfg : Config) : Except (List Nat) Unit :=
  if authHeader.length = 0 then .error (strA "authorization header is missing")
  else
    match cut authHeader 32 with
    | none => .error (strA "invalid authorization type")
    | some (authType, authInfo) =>
      if authType ≠ strA "Basic" then .error (strA "invalid authorization type")
      else
        match base64Decode authInfo with
        | none => .error (strA "failed to decode basic auth info")
        | some decoded =>
          match cut decoded 58 with
          | none => .error (strA "invalid credentials")
          | some (username, password) =>
            if username ≠ cfg.username ∨ password ≠ cfg.password then
              .error (strA "invalid credentials")
            else .ok ()

/-- Embedding of uploadHander (sic) from src/main.go lines 63-105. The
wall-clock date, the rendered UUID string and the success of the three
filesystem operations (MkdirAll, Create, Copy) are explicit parameters.
Returns the response and the resulting filesystem. -/
def uploadHander (cfg : Config) (r : UploadRequest)
    (nowYear nowMonth nowDay : Nat) (newUUID : List Nat)
    (mkdirOk createOk copyOk : Bool) (fs : FS) : Response × FS :=
  if r.method ≠ strA "POST" then
    (httpError (strA "Method not allowed") 405, fs)
  else
    match basicAuth r.authHeader cfg with
    | .error _ => (httpError (strA "Unauthorized") 401, fs)
    | .ok _ =>
      match r.formFile with
      | none => (httpError (strA "Bad Request: Missing file") 400, fs)
      | some (fname, content) =>
        let ext := goExt fname
        let filename := newUUID ++ ext
        let timePath := decimal nowYear ++ 47 :: pad2 nowMonth ++ 47 :: pad2 nowDay
        let timeNameString := timePath ++ 47 :: filename
        let dirPath := goJoin [cfg.uploadDir, timePath]
        let filePath := goJoin [cfg.uploadDir, timeNameString]
        if ¬ mkdirOk then (httpError (strA "Internal Server Error") 500, fs)
        else
          let fs1 := fs.mkdir dirPath
          if ¬ createOk then (httpError (strA "Internal Server Error") 500, fs1)
          else
            let fs2 := fs1.write filePath []
            if ¬ copyOk then (httpError (strA "Internal Server Error") 500, fs2)
            else
              let fs3 := fs2.write filePath content
              ({ status := 200, headers := [],
                 body := cfg.accessPrefix ++ 47 :: timeNameString }, fs3)

/-- Models the error mapping of Go net/http ServeFile on the open of the
target path (toHTTPError): not-exist gives 404, permission errors give
403, anything else gives 500; an existing file is served with status 200
and the headers already set by the handler. -/
def serveFile (hdrs : List (List Nat × List Nat)) (st : FileStatus) : Response :=
  match st with
  | .present content => { status := 200, headers := hdrs, body := content }
  | .absent => httpError (strA "404 page not found") 404
  | .permDenied => { status := 403, headers := hdrs, body := strA "403 Forbidden" ++ [10] }
  | .otherErr => { status := 500, headers := hdrs, body := strA "500 Internal Server Error" ++ [10] }

/-- Embedding of getHandler from src/main.go lines 106-128. The four route
variables are parameters; `mimeTable` abstracts mime.TypeByExtension
(its table is partly loaded from the host system), returning the empty
list for an unknown extension. Only a stat failure that is not-exist is
answered with 404 (line 115 checks os.IsNotExist only); every other
status falls through to ServeFile. -/
def getHandler (cfg : Config) (mimeTable : List Nat → List Nat)
    (year month day filename : List Nat) (fs : FS) : Response :=
  let ext := goExt filename
  let filePath := goJoin [cfg.uploadDir, year, month, day, filename]
  match fs.files filePath with
  | .absent => httpError (strA "404 page not found") 404
  | st =>
    let ct0 := mimeTable ext
    let ct := if ct0 = [] then strA "application/octet-stream" else ct0
    serveFile
      [(strA "Content-Type", ct),
       (strA "Cache-Control", strA "public, max-age=315360000"),
       (strA "Content-Disposition", strA "inline; filename=\"" ++ filename ++ [34])]
      st

/-- A byte string that is a single ordinary path segment: nonempty, free of
slash bytes, and neither the dot nor the dotdot segment. Route variables
matched by the router always satisfy this (its variable patterns match one
nonempty slash-free segment and the router normalizes dot segments away
before dispatch). -/
def PlainSeg (s : List Nat) : Prop :=
  s ≠ [] ∧ 47 ∉ s ∧ s ≠ [46] ∧ s ≠ [46, 46]

instance : DecidablePred PlainSeg := fun s => by
  unfold PlainSeg; infer_instance

/-! Support lemmas about the byte-string and path primitives. -/

theorem cut_append (sep : Nat) (xs ys : List Nat) (h : sep ∉ xs) :
    cut (xs ++ sep :: ys) sep = some (xs, ys) := by
  induction xs with
  | nil => simp [cut]
  | cons c xs ih =>
    have hc : c ≠ sep := by simp at h; tauto
    have hx : sep ∉ xs := by simp at h; tauto
    simp [cut, hc, ih hx]

theorem cut_not_mem (sep : Nat) (xs : List Nat) (h : sep ∉ xs) :
    cut xs sep = none := by
  induction xs with
  | nil => simp [cut]
  | cons c xs ih =>
    have hc : c ≠ sep := by simp at h; tauto
    have hx : sep ∉ xs := by simp at h; tauto
    simp [cut, hc, ih hx]

theorem decimalCore_cons : ∀ fuel n acc, n < fuel →
    ∃ c cs, decimalCore fuel n acc = c :: (cs ++ acc) ∧ (0 < n → c ≠ 48) ∧
      (n < 10 → c = 48 + n ∧ cs = []) := by
  intro fuel
  induction fuel with
  | zero => intro n acc h; omega
  | succ fuel ih =>
    intro n acc h
    by_cases h10 : n < 10
    · exact ⟨48 + n, [], by simp [decimalCore, h10], by omega, fun _ => ⟨rfl, rfl⟩⟩
    · have hlt : n / 10 < fuel := by
        have : n / 10 < n := Nat.div_lt_self (by omega) (by omega)
        omega
      obtain ⟨c, cs, heq, hpos, -⟩ := ih (n / 10) ((48 + n % 10) :: acc) hlt
      refine ⟨c, cs ++ [48 + n % 10], ?_, fun _ => hpos (by omega), by omega⟩
      simp [decimalCore, h10, heq]

theorem decimal_ne_nil (n : Nat) : decimal n ≠ [] := by
  obtain ⟨c, cs, heq, -, -⟩ := decimalCore_cons (n + 1) n [] (by omega)
  simp [decimal, heq]

theorem decimal_head_ne_48 (n : Nat) (h : 0 < n) : (decimal n).head? ≠ some 48 := by
  obtain ⟨c, cs, heq, hpos, -⟩ := decimalCore_cons (n + 1) n [] (by omega)
  simp [decimal, heq, hpos h]

theorem pad2_length (n : Nat) (h1 : 1 ≤ n) (h2 : n ≤ 99) : (pad2 n).length = 2 := by
  by_cases h10 : n < 10
  · simp [pad2, h10]
  · have hfuel : n / 10 < n := Nat.div_lt_self (by omega) (by omega)
    obtain ⟨c, cs, heq, -, hsm⟩ := decimalCore_cons n (n / 10) [48 + n % 10] hfuel
    obtain ⟨hc, hcs⟩ := hsm (by omega)
    have : decimal n = [48 + n / 10, 48 + n % 10] := by
      simp [decimal, decimalCore, h10]
      rw [heq, hc, hcs]
      simp
    simp [pad2, h10, this]

theorem extAux_eq (l : List Nat) (h : 47 ∉ l) : ∀ acc, extAux acc l = extSpecAux acc l := by
  induction l with
  | nil => intro acc; rfl
  | cons c rest ih =>
    intro acc
    have hc : c ≠ 47 := by simp at h; tauto
    have hr : 47 ∉ rest := by simp at h; tauto
    by_cases h46 : c = 46 <;> simp [extAux, extSpecAux, hc, h46]
    exact ih hr _

theorem goExt_eq_extSpec (p : List Nat) (h : 47 ∉ p) : goExt p = extSpec p := by
  have : 47 ∉ p.reverse := by simpa using h
  exact extAux_eq p.reverse this []

theorem splitOnSlash_no_slash (s : List Nat) (h : 47 ∉ s) :
    splitOnSlash s = [s] := by
  induction s with
  | nil => simp [splitOnSlash]
  | cons c s ih =>
    have hc : c ≠ 47 := by simp at h; tauto
    have hs : 47 ∉ s := by simp at h; tauto
    simp [splitOnSlash, hc, ih hs]

theorem splitOnSlash_append (s t : List Nat) (h : 47 ∉ s) :
    splitOnSlash (s ++ 47 :: t) = s :: splitOnSlash t := by
  induction s with
  | nil => simp [splitOnSlash]
  | cons c s ih =>
    have hc : c ≠ 47 := by simp at h; tauto
    have hs : 47 ∉ s := by simp at h; tauto
    simp [splitOnSlash, hc, ih hs]

theorem joinSlash_cons (s : List Nat) (rest : List (List Nat)) (h : rest ≠ []) :
    joinSlash (s :: rest) = s ++ 47 :: joinSlash rest := by
  cases rest with
  | nil => exact absurd rfl h
  | cons t r => rfl

theorem joinSlash_ne_nil (s : List Nat) (rest : List (List Nat)) (h : s ≠ []) :
    joinSlash (s :: rest) ≠ [] := by
  cases rest with
  | nil => simpa [joinSlash] using h
  | cons t r => simp [joinSlash, h]

theorem joinSlash_head (s : List Nat) (rest : List (List Nat)) (h : s ≠ []) :
    (joinSlash (s :: rest)).head? = s.head? := by
  cases rest with
  | nil => rfl
  | cons t r =>
    cases s with
    | nil => exact absurd rfl h
    | cons a s => simp [joinSlash]

theorem joinSlash_append (ss ts : List (List Nat)) (hs : ss ≠ []) (ht : ts ≠ []) :
    joinSlash (ss ++ ts) = joinSlash ss ++ 47 :: joinSlash ts := by
  induction ss with
  | nil => exact absurd rfl hs
  | cons s ss ih =>
    cases ss with
    | nil =>
      cases ts with
      | nil => exact absurd rfl ht
      | cons t r => simp [joinSlash]
    | cons u v =>
      have h1 : (u :: v) ++ ts ≠ [] := by simp
      rw [List.cons_append, joinSlash_cons s _ h1, joinSlash_cons s _ (by simp),
        ih (by simp)]
      simp

theorem splitOnSlash_joinSlash (ss : List (List Nat)) (hne : ss ≠ [])
    (h : ∀ s ∈ ss, 47 ∉ s) : splitOnSlash (joinSlash ss) = ss := by
  induction ss with
  | nil => exact absurd rfl hne
  | cons s ss ih =>
    cases ss with
    | nil => simpa [joinSlash] using splitOnSlash_no_slash s (h s (by simp))
    | cons t r =>
      rw [joinSlash_cons s _ (by simp), splitOnSlash_append s _ (h s (by simp)),
        ih (by simp) (fun u hu => h u (by simp [hu]))]

theorem foldl_cleanStep_plain (rooted : Bool) :
    ∀ (ss : List (List Nat)) (st : List (List Nat)), (∀ s ∈ ss, PlainSeg s) →
      List.foldl (cleanStep rooted) st ss = ss.reverse ++ st := by
  intro ss
  induction ss with
  | nil => intro st _; simp
  | cons s ss ih =>
    intro st h
    obtain ⟨h1, h2, h3, h4⟩ := h s (by simp)
    have hstep : cleanStep rooted st s = s :: st := by
      simp [cleanStep, h1, h3, h4]
    rw [List.foldl_cons, hstep, ih (s :: st) (fun u hu => h u (by simp [hu]))]
    simp

theorem clean_plain (ss : List (List Nat)) (hne : ss ≠ [])
    (h : ∀ s ∈ ss, PlainSeg s) : clean (joinSlash ss) = joinSlash ss := by
  obtain ⟨s, rest, rfl⟩ : ∃ s rest, ss = s :: rest := by
    cases ss with
    | nil => exact absurd rfl hne
    | cons s rest => exact ⟨s, rest, rfl⟩
  obtain ⟨h1, h2, h3, h4⟩ := h s (by simp)
  have hpne : joinSlash (s :: rest) ≠ [] := joinSlash_ne_nil s rest h1
  have hhead : (joinSlash (s :: rest)).head? ≠ some 47 := by
    rw [joinSlash_head s rest h1]
    cases s with
    | nil => exact absurd rfl h1
    | cons a s =>
      have : a ≠ 47 := by simp at h2; tauto
      simp [this]
  rw [clean, if_neg hpne, if_neg hhead]
  rw [splitOnSlash_joinSlash _ (by simp) (fun u hu => (h u hu).2.1),
    foldl_cleanStep_plain false _ [] h]
  simp [hpne]

theorem clean_plain_rooted (ss : List (List Nat)) (hne : ss ≠ [])
    (h : ∀ s ∈ ss, PlainSeg s) :
    clean (47 :: joinSlash ss) = 47 :: joinSlash ss := by
  obtain ⟨s, rest, rfl⟩ : ∃ s rest, ss = s :: rest := by
    cases ss with
    | nil => exact absurd rfl hne
    | cons s rest => exact ⟨s, rest, rfl⟩
  obtain ⟨h1, h2, h3, h4⟩ := h s (by simp)
  have hpne : joinSlash (s :: rest) ≠ [] := joinSlash_ne_nil s rest h1
  have hsplit : splitOnSlash (47 :: joinSlash (s :: rest)) =
      [] :: splitOnSlash (joinSlash (s :: rest)) := by
    simp [splitOnSlash]
  rw [clean, if_neg (by simp), if_pos (by simp), hsplit,
    splitOnSlash_joinSlash _ (by simp) (fun u hu => (h u hu).2.1)]
  have hstep : cleanStep true [] [] = [] := by simp [cleanStep]
  rw [List.foldl_cons, hstep, foldl_cleanStep_plain true _ [] h]
  simp [hpne]

theorem goJoin_nil_cons (rest : List (List Nat)) :
    goJoin ([] :: rest) = goJoin rest := by
  simp [goJoin, List.dropWhile]

theorem goJoin_of_ne_nil (up : List Nat) (rest : List (List Nat)) (h : up ≠ []) :
    goJoin (up :: rest) = clean (joinSlash (up :: rest)) := by
  simp [goJoin, List.dropWhile, h]

theorem goJoin_split5 (up a b c e : List Nat) (ha : a ≠ []) :
    goJoin [up, a ++ 47 :: (b ++ 47 :: (c ++ 47 :: e))] = goJoin [up, a, b, c, e] := by
  by_cases hu : up = []
  · subst hu
    rw [goJoin_nil_cons, goJoin_nil_cons,
      goJoin_of_ne_nil _ _ (by simp [ha]), goJoin_of_ne_nil _ _ ha]
    simp [joinSlash]
  · rw [goJoin_of_ne_nil _ _ hu, goJoin_of_ne_nil _ _ hu]
    simp [joinSlash]

/-! Branch lemmas for the upload handler and the auth characterization,
shared by the claim theorems below. -/

theorem uploadHander_not_post (cfg : Config) (r : UploadRequest)
    (y m d : Nat) (id : List Nat) (o1 o2 o3 : Bool) (fs : FS)
    (hm : r.method ≠ strA "POST") :
    uploadHander cfg r y m d id o1 o2 o3 fs =
      (httpError (strA "Method not allowed") 405, fs) := by
  simp [uploadHander, hm]

theorem uploadHander_auth_error (cfg : Config) (r : UploadRequest)
    (y m d : Nat) (id : List Nat) (o1 o2 o3 : Bool) (fs : FS) (e : List Nat)
    (hm : r.method = strA "POST")
    (ha : basicAuth r.authHeader cfg = Except.error e) :
    uploadHander cfg r y m d id o1 o2 o3 fs =
      (httpError (strA "Unauthorized") 401, fs) := by
  simp [uploadHander, hm, ha]

theorem uploadHander_no_file (cfg : Config) (r : UploadRequest)
    (y m d : Nat) (id : List Nat) (o1 o2 o3 : Bool) (fs : FS)
    (hm : r.method = strA "POST")
    (ha : basicAuth r.authHeader cfg = Except.ok ())
    (hf : r.formFile = none) :
    uploadHander cfg r y m d id o1 o2 o3 fs =
      (httpError (strA "Bad Request: Missing file") 400, fs) := by
  simp [uploadHander, hm, ha, hf]

theorem basicAuth_ok_iff (cfg : Config) (h : List Nat) :
    basicAuth h cfg = Except.ok () ↔
      ∃ info decoded, cut h 32 = some (strA "Basic", info)
        ∧ base64Decode info = some decoded
        ∧ cut decoded 58 = some (cfg.username, cfg.password) := by
  constructor
  · intro hok
    unfold basicAuth at hok
    by_cases hlen : h.length = 0
    · rw [if_pos hlen] at hok; simp at hok
    rw [if_neg hlen] at hok
    rcases hcut : cut h 32 with _ | ⟨authType, authInfo⟩ <;>
      rw [hcut] at hok <;> dsimp only at hok
    · simp at hok
    by_cases htype : authType ≠ strA "Basic"
    · rw [if_pos htype] at hok; simp at hok
    rw [if_neg htype] at hok
    rcases hdec : base64Decode authInfo with _ | decoded <;>
      rw [hdec] at hok <;> dsimp only at hok
    · simp at hok
    rcases hcol : cut decoded 58 with _ | ⟨u, p⟩ <;>
      rw [hcol] at hok <;> dsimp only at hok
    · simp at hok
    by_cases hup : u ≠ cfg.username ∨ p ≠ cfg.password
    · rw [if_pos hup] at hok; simp at hok
    push_neg at htype hup
    obtain ⟨hu, hp⟩ := hup
    subst htype hu hp
    exact ⟨authInfo, decoded, rfl, hdec, hcol⟩
  · rintro ⟨info, decoded, hcut, hdec, hcol⟩
    have hne : ¬ h.length = 0 := by
      intro hl
      rw [List.eq_nil_of_length_eq_zero hl] at hcut
      simp [cut] at hcut
    simp [basicAuth, hne, hcut, hdec, hcol]

/-! Claim theorems. -/

/-- C3: the upload preconditions are checked in order, with the same
outcomes the spec lists: a non-POST method answers 405 before anything
else is looked at, then a failing credential check answers 401 whatever
the form carries, then a missing file field answers 400. -/
theorem upload_precondition_order (cfg : Config) (r : UploadRequest)
    (y m d : Nat) (id : List Nat) (o1 o2 o3 : Bool) (fs : FS) :
    (r.method ≠ strA "POST" →
      uploadHander cfg r y m d id o1 o2 o3 fs =
        (httpError (strA "Method not allowed") 405, fs))
    ∧ (∀ e, r.method = strA "POST" → basicAuth r.authHeader cfg = Except.error e →
      uploadHander cfg r y m d id o1 o2 o3 fs =
        (httpError (strA "Unauthorized") 401, fs))
    ∧ (r.method = strA "POST" → basicAuth r.authHeader cfg = Except.ok () →
      r.formFile = none →
      uploadHander cfg r y m d id o1 o2 o3 fs =
        (httpError (strA "Bad Request: Missing file") 400, fs)) :=
  ⟨fun hm => uploadHander_not_post cfg r y m d id o1 o2 o3 fs hm,
   fun e hm ha => uploadHander_auth_error cfg r y m d id o1 o2 o3 fs e hm ha,
   fun hm ha hf => uploadHander_no_file cfg r y m d id o1 o2 o3 fs hm ha hf⟩

theorem upload_precondition_order_witness :
    (uploadHander ⟨[], [], strA "up", strA "files", strA "user", strA "pass"⟩
      ⟨strA "GET", [], none⟩ 2024 3 5 (strA "id") true true true
      ⟨fun _ => FileStatus.absent, []⟩ =
        (httpError (strA "Method not allowed") 405, ⟨fun _ => FileStatus.absent, []⟩))
    ∧ (uploadHander ⟨[], [], strA "up", strA "files", strA "user", strA "pass"⟩
      ⟨strA "POST", [], none⟩ 2024 3 5 (strA "id") true true true
      ⟨fun _ => FileStatus.absent, []⟩ =
        (httpError (strA "Unauthorized") 401, ⟨fun _ => FileStatus.absent, []⟩))
    ∧ (uploadHander ⟨[], [], strA "up", strA "files", strA "user", strA "pass"⟩
      ⟨strA "POST", strA "Basic dXNlcjpwYXNz", none⟩ 2024 3 5 (strA "id") true true true
      ⟨fun _ => FileStatus.absent, []⟩ =
        (httpError (strA "Bad Request: Missing file") 400, ⟨fun _ => FileStatus.absent, []⟩)) :=
  ⟨(upload_precondition_order _ _ 2024 3 5 _ true true true _).1 (by decide),
   (upload_precondition_order _ _ 2024 3 5 _ true true true _).2.1
     (strA "authorization header is missing") rfl (by decide),
   (upload_precondition_order _ _ 2024 3 5 _ true true true _).2.2
     rfl (by decide) rfl⟩

/-- C4: the credential check succeeds exactly when the Authorization header
value cuts at the first space into the token Basic and a payload that
base64-decodes to a byte string cutting at the first colon into the
configured username and password; every failing header, whatever internal
error it produced, is answered by the one 401 Unauthorized response of the
upload handler. The check is a pure function of the header and the
configuration (its type allows no side effect). -/
theorem basicAuth_success_characterization (cfg : Config) :
    (∀ h : List Nat, basicAuth h cfg = Except.ok () ↔
      ∃ info decoded, cut h 32 = some (strA "Basic", info)
        ∧ base64Decode info = some decoded
        ∧ cut decoded 58 = some (cfg.username, cfg.password))
    ∧ (∀ (r : UploadRequest) (y m d : Nat) (id : List Nat) (o1 o2 o3 : Bool)
        (fs : FS) (e : List Nat), r.method = strA "POST" →
        basicAuth r.authHeader cfg = Except.error e →
        uploadHander cfg r y m d id o1 o2 o3 fs =
          (httpError (strA "Unauthorized") 401, fs)) :=
  ⟨fun h => basicAuth_ok_iff cfg h,
   fun r y m d id o1 o2 o3 fs e hm ha =>
     uploadHander_auth_error cfg r y m d id o1 o2 o3 fs e hm ha⟩

theorem basicAuth_success_characterization_witness :
    basicAuth (strA "Basic dXNlcjpwYXNz")
      ⟨[], [], strA "up", strA "files", strA "user", strA "pass"⟩ = Except.ok ()
    ∧ uploadHander ⟨[], [], strA "up", strA "files", strA "user", strA "pass"⟩
        ⟨strA "POST", strA "Basic nonsense!", none⟩ 2024 3 5 (strA "id")
        true true true ⟨fun _ => FileStatus.absent, []⟩ =
      (httpError (strA "Unauthorized") 401, ⟨fun _ => FileStatus.absent, []⟩) :=
  ⟨((basicAuth_success_characterization _).1 _).mpr
    ⟨strA "dXNlcjpwYXNz", strA "user:pass", by decide, by decide, by decide⟩,
   (basicAuth_success_characterization _).2 _ 2024 3 5 _ true true true _
     (strA "failed to decode basic auth info") rfl (by decide)⟩

/-- C7: an upload rejected by the method check (405) or by the credential
check (401) returns the filesystem exactly as it was: no file content is
written and no directory creation is performed. -/
theorem upload_failure_leaves_fs (cfg : Config) (r : UploadRequest)
    (y m d : Nat) (id : List Nat) (o1 o2 o3 : Bool) (fs : FS) :
    (r.method ≠ strA "POST" →
      (uploadHander cfg r y m d id o1 o2 o3 fs).1.status = 405
      ∧ (uploadHander cfg r y m d id o1 o2 o3 fs).2 = fs)
    ∧ (∀ e, r.method = strA "POST" → basicAuth r.authHeader cfg = Except.error e →
      (uploadHander cfg r y m d id o1 o2 o3 fs).1.status = 401
      ∧ (uploadHander cfg r y m d id o1 o2 o3 fs).2 = fs) := by
  constructor
  · intro hm
    rw [uploadHander_not_post cfg r y m d id o1 o2 o3 fs hm]
    exact ⟨rfl, rfl⟩
  · intro e hm ha
    rw [uploadHander_auth_error cfg r y m d id o1 o2 o3 fs e hm ha]
    exact ⟨rfl, rfl⟩

theorem upload_failure_leaves_fs_witness :
    ((uploadHander ⟨[], [], strA "up", strA "files", strA "admin", strA "secret"⟩
      ⟨strA "GET", [], none⟩ 2024 3 5 (strA "id") true true true
      ⟨fun _ => FileStatus.absent, []⟩).1.status = 405
    ∧ (uploadHander ⟨[], [], strA "up", strA "files", strA "admin", strA "secret"⟩
      ⟨strA "GET", [], none⟩ 2024 3 5 (strA "id") true true true
      ⟨fun _ => FileStatus.absent, []⟩).2 = ⟨fun _ => FileStatus.absent, []⟩)
    ∧ ((uploadHander ⟨[], [], strA "up", strA "files", strA "admin", strA "secret"⟩
      ⟨strA "POST", strA "Basic dXNlcjpwYXNz", some (strA "a.png", [1, 2, 3])⟩
      2024 3 5 (strA "id") true true true
      ⟨fun _ => FileStatus.absent, []⟩).1.status = 401
    ∧ (uploadHander ⟨[], [], strA "up", strA "files", strA "admin", strA "secret"⟩
      ⟨strA "POST", strA "Basic dXNlcjpwYXNz", some (strA "a.png", [1, 2, 3])⟩
      2024 3 5 (strA "id") true true true
      ⟨fun _ => FileStatus.absent, []⟩).2 = ⟨fun _ => FileStatus.absent, []⟩) :=
  ⟨(upload_failure_leaves_fs _ _ 2024 3 5 _ true true true _).1 (by decide),
   (upload_failure_leaves_fs _ _ 2024 3 5 _ true true true _).2
     (strA "invalid credentials") rfl (by decide)⟩

/-- C9: the Authorization header is cut at the first space and the token
before that space must be exactly the bytes of Basic; whenever that cut
fails (no space at all) or yields any other token (such as lowercase
basic or uppercase BASIC), the check fails. -/
theorem basicAuth_scheme_strict (cfg : Config) (h : List Nat)
    (hne : (cut h 32).map Prod.fst ≠ some (strA "Basic")) :
    ∃ e, basicAuth h cfg = Except.error e := by
  unfold basicAuth
  by_cases hlen : h.length = 0
  · rw [if_pos hlen]; exact ⟨_, rfl⟩
  rw [if_neg hlen]
  rcases hcut : cut h 32 with _ | ⟨authType, authInfo⟩ <;> dsimp only
  · exact ⟨_, rfl⟩
  · have ht : authType ≠ strA "Basic" := by
      intro hT; rw [hcut, hT] at hne; simp at hne
    rw [if_pos ht]
    exact ⟨_, rfl⟩

theorem basicAuth_scheme_strict_witness :
    (∃ e, basicAuth (strA "basic dXNlcjpwYXNz")
      ⟨[], [], strA "up", strA "files", strA "user", strA "pass"⟩ = Except.error e)
    ∧ (∃ e, basicAuth (strA "BASIC dXNlcjpwYXNz")
      ⟨[], [], strA "up", strA "files", strA "user", strA "pass"⟩ = Except.error e)
    ∧ (∃ e, basicAuth (strA "BasicdXNlcjpwYXNz")
      ⟨[], [], strA "up", strA "files", strA "user", strA "pass"⟩ = Except.error e) :=
  ⟨basicAuth_scheme_strict _ _ (by decide),
   basicAuth_scheme_strict _ _ (by decide),
   basicAuth_scheme_strict _ _ (by decide)⟩

/-- C10: the decoded credential bytes are cut at the first colon only:
with a configured username free of colons, any configured password (in
particular one containing colons) authenticates when the decoded payload
is username colon password, while a decoded payload containing no colon
at all is rejected. -/
theorem basicAuth_colon_cut (cfg : Config) (info : List Nat) :
    (58 ∉ cfg.username →
      base64Decode info = some (cfg.username ++ 58 :: cfg.password) →
      basicAuth (strA "Basic " ++ info) cfg = Except.ok ())
    ∧ (∀ decoded, base64Decode info = some decoded → 58 ∉ decoded →
      ∃ e, basicAuth (strA "Basic " ++ info) cfg = Except.error e) := by
  have hsp : strA "Basic " ++ info = strA "Basic" ++ 32 :: info := rfl
  have hcut : cut (strA "Basic " ++ info) 32 = some (strA "Basic", info) := by
    rw [hsp]; exact cut_append 32 _ info (by decide)
  constructor
  · intro hu hdec
    exact (basicAuth_ok_iff cfg _).mpr
      ⟨info, cfg.username ++ 58 :: cfg.password, hcut, hdec,
        cut_append 58 _ _ hu⟩
  · intro decoded hdec hnc
    simp [basicAuth, hcut, hdec, cut_not_mem 58 decoded hnc]
    split <;> exact ⟨_, rfl⟩

theorem basicAuth_colon_cut_witness :
    basicAuth (strA "Basic dTpwOnE=") ⟨[], [], [], [], strA "u", strA "p:q"⟩ =
      Except.ok ()
    ∧ (∃ e, basicAuth (strA "Basic YWJj") ⟨[], [], [], [], strA "u", strA "p:q"⟩ =
      Except.error e) :=
  ⟨(basicAuth_colon_cut _ _).1 (by decide) (by decide),
   (basicAuth_colon_cut _ _).2 (strA "abc") (by decide) (by decide)⟩

theorem uploadHander_ok (cfg : Config) (r : UploadRequest) (y m d : Nat)
    (id fname content : List Nat) (fs : FS)
    (hm : r.method = strA "POST")
    (ha : basicAuth r.authHeader cfg = Except.ok ())
    (hf : r.formFile = some (fname, content)) :
    uploadHander cfg r y m d id true true true fs =
      ({ status := 200, headers := [],
         body := cfg.accessPrefix ++ 47 ::
           (decimal y ++ 47 :: (pad2 m ++ 47 :: (pad2 d ++ 47 :: (id ++ goExt fname)))) },
       ((fs.mkdir (goJoin [cfg.uploadDir,
            decimal y ++ 47 :: (pad2 m ++ 47 :: pad2 d)])).write
          (goJoin [cfg.uploadDir,
            decimal y ++ 47 :: (pad2 m ++ 47 :: (pad2 d ++ 47 :: (id ++ goExt fname)))]) []).write
        (goJoin [cfg.uploadDir,
          decimal y ++ 47 :: (pad2 m ++ 47 :: (pad2 d ++ 47 :: (id ++ goExt fname)))]) content) := by
  simp [uploadHander, hm, ha, hf]

/-- C1: a successful upload stores the uploaded bytes at the public path
resolved against the upload root, and a retrieval of the four path
segments of the returned URL (the retrieval handler takes no credentials
at all) answers 200 with exactly the uploaded bytes. -/
theorem upload_then_get_roundtrip
    (cfg : Config) (mimeTable : List Nat → List Nat) (r : UploadRequest)
    (y m d : Nat) (id fname content : List Nat) (fs : FS)
    (hm : r.method = strA "POST")
    (ha : basicAuth r.authHeader cfg = Except.ok ())
    (hf : r.formFile = some (fname, content)) :
    (uploadHander cfg r y m d id true true true fs).1.status = 200
    ∧ (uploadHander cfg r y m d id true true true fs).1.body =
        cfg.accessPrefix ++ 47 ::
          (decimal y ++ 47 :: (pad2 m ++ 47 :: (pad2 d ++ 47 :: (id ++ goExt fname))))
    ∧ (uploadHander cfg r y m d id true true true fs).2.files
        (goJoin [cfg.uploadDir,
          decimal y ++ 47 :: (pad2 m ++ 47 :: (pad2 d ++ 47 :: (id ++ goExt fname)))])
        = FileStatus.present content
    ∧ (getHandler cfg mimeTable (decimal y) (pad2 m) (pad2 d) (id ++ goExt fname)
        (uploadHander cfg r y m d id true true true fs).2).status = 200
    ∧ (getHandler cfg mimeTable (decimal y) (pad2 m) (pad2 d) (id ++ goExt fname)
        (uploadHander cfg r y m d id true true true fs).2).body = content := by
  rw [uploadHander_ok cfg r y m d id fname content fs hm ha hf]
  refine ⟨rfl, rfl, ?_, ?_, ?_⟩
  · simp [FS.write]
  · simp [getHandler, ← goJoin_split5 cfg.uploadDir (decimal y) (pad2 m) (pad2 d)
      (id ++ goExt fname) (decimal_ne_nil y), FS.write, serveFile]
  · simp [getHandler, ← goJoin_split5 cfg.uploadDir (decimal y) (pad2 m) (pad2 d)
      (id ++ goExt fname) (decimal_ne_nil y), FS.write, serveFile]

theorem upload_then_get_roundtrip_witness :
    (uploadHander ⟨[], [], strA "data", strA "files", strA "user", strA "pass"⟩
      ⟨strA "POST", strA "Basic dXNlcjpwYXNz", some (strA "photo.png", [9, 8, 7])⟩
      2024 3 5 (strA "id0") true true true ⟨fun _ => FileStatus.absent, []⟩).1.status = 200
    ∧ (uploadHander ⟨[], [], strA "data", strA "files", strA "user", strA "pass"⟩
      ⟨strA "POST", strA "Basic dXNlcjpwYXNz", some (strA "photo.png", [9, 8, 7])⟩
      2024 3 5 (strA "id0") true true true ⟨fun _ => FileStatus.absent, []⟩).1.body =
        strA "files" ++ 47 ::
          (decimal 2024 ++ 47 :: (pad2 3 ++ 47 :: (pad2 5 ++ 47 :: (strA "id0" ++ goExt (strA "photo.png")))))
    ∧ (uploadHander ⟨[], [], strA "data", strA "files", strA "user", strA "pass"⟩
      ⟨strA "POST", strA "Basic dXNlcjpwYXNz", some (strA "photo.png", [9, 8, 7])⟩
      2024 3 5 (strA "id0") true true true ⟨fun _ => FileStatus.absent, []⟩).2.files
        (goJoin [strA "data",
          decimal 2024 ++ 47 :: (pad2 3 ++ 47 :: (pad2 5 ++ 47 :: (strA "id0" ++ goExt (strA "photo.png"))))])
        = FileStatus.present [9, 8, 7]
    ∧ (getHandler ⟨[], [], strA "data", strA "files", strA "user", strA "pass"⟩
        (fun _ => []) (decimal 2024) (pad2 3) (pad2 5)
        (strA "id0" ++ goExt (strA "photo.png"))
        (uploadHander ⟨[], [], strA "data", strA "files", strA "user", strA "pass"⟩
          ⟨strA "POST", strA "Basic dXNlcjpwYXNz", some (strA "photo.png", [9, 8, 7])⟩
          2024 3 5 (strA "id0") true true true ⟨fun _ => FileStatus.absent, []⟩).2).status = 200
    ∧ (getHandler ⟨[], [], strA "data", strA "files", strA "user", strA "pass"⟩
        (fun _ => []) (decimal 2024) (pad2 3) (pad2 5)
        (strA "id0" ++ goExt (strA "photo.png"))
        (uploadHander ⟨[], [], strA "data", strA "files", strA "user", strA "pass"⟩
          ⟨strA "POST", strA "Basic dXNlcjpwYXNz", some (strA "photo.png", [9, 8, 7])⟩
          2024 3 5 (strA "id0") true true true ⟨fun _ => FileStatus.absent, []⟩).2).body = [9, 8, 7] :=
  upload_then_get_roundtrip _ _ _ 2024 3 5 (strA "id0") (strA "photo.png") [9, 8, 7] _
    rfl (by decide) rfl

/-- C2: a successful upload on a date with a one-digit month and day in
range stores the file under, and returns as plain-text 200 body, the
public URL accessPrefix slash year slash month slash day slash
identifier-plus-extension, where the year is printed unpadded with no
leading zero, month and day render as exactly two digits, and the
extension is everything from the last dot of the supplied filename
onward (stated via extSpec, the spec wording, which agrees with the
embedded filepath.Ext on the slash-free filenames the multipart layer
delivers); the identifier is the freshly generated UUID string, modelled
as the explicit newUUID input. -/
theorem upload_success_path_format (cfg : Config) (r : UploadRequest)
    (y m d : Nat) (id fname content : List Nat) (fs : FS)
    (hm : r.method = strA "POST")
    (ha : basicAuth r.authHeader cfg = Except.ok ())
    (hf : r.formFile = some (fname, content))
    (hslash : 47 ∉ fname)
    (hy : 0 < y) (hm1 : 1 ≤ m) (hm2 : m ≤ 12) (hd1 : 1 ≤ d) (hd2 : d ≤ 31) :
    (uploadHander cfg r y m d id true true true fs).1 =
      { status := 200, headers := [],
        body := cfg.accessPrefix ++ 47 ::
          (decimal y ++ 47 :: (pad2 m ++ 47 :: (pad2 d ++ 47 :: (id ++ extSpec fname)))) }
    ∧ (uploadHander cfg r y m d id true true true fs).2.files
        (goJoin [cfg.uploadDir,
          decimal y ++ 47 :: (pad2 m ++ 47 :: (pad2 d ++ 47 :: (id ++ extSpec fname)))])
        = FileStatus.present content
    ∧ (pad2 m).length = 2 ∧ (pad2 d).length = 2
    ∧ (decimal y).head? ≠ some 48 := by
  rw [← goExt_eq_extSpec fname hslash,
    uploadHander_ok cfg r y m d id fname content fs hm ha hf]
  exact ⟨rfl, by simp [FS.write], pad2_length m hm1 (by omega),
    pad2_length d hd1 (by omega), decimal_head_ne_48 y hy⟩

theorem upload_success_path_format_witness :
    (uploadHander ⟨[], [], strA "data", strA "files", strA "user", strA "pass"⟩
      ⟨strA "POST", strA "Basic dXNlcjpwYXNz", some (strA "photo.png", [1, 2])⟩
      2024 3 5 (strA "id1") true true true ⟨fun _ => FileStatus.absent, []⟩).1 =
      { status := 200, headers := [],
        body := strA "files" ++ 47 ::
          (decimal 2024 ++ 47 :: (pad2 3 ++ 47 :: (pad2 5 ++ 47 :: (strA "id1" ++ extSpec (strA "photo.png"))))) }
    ∧ (uploadHander ⟨[], [], strA "data", strA "files", strA "user", strA "pass"⟩
      ⟨strA "POST", strA "Basic dXNlcjpwYXNz", some (strA "photo.png", [1, 2])⟩
      2024 3 5 (strA "id1") true true true ⟨fun _ => FileStatus.absent, []⟩).2.files
        (goJoin [strA "data",
          decimal 2024 ++ 47 :: (pad2 3 ++ 47 :: (pad2 5 ++ 47 :: (strA "id1" ++ extSpec (strA "photo.png"))))])
        = FileStatus.present [1, 2]
    ∧ (pad2 3).length = 2 ∧ (pad2 5).length = 2
    ∧ (decimal 2024).head? ≠ some 48 :=
  upload_success_path_format _ _ 2024 3 5 (strA "id1") (strA "photo.png") [1, 2] _
    rfl (by decide) rfl (by decide) (by omega) (by omega) (by omega) (by omega) (by omega)

/-- C5 counterexample: a request whose stat fails with a permission error
(not with not-exist) is answered 403 by the file-serving fallback, not
404, refuting the claim that every stat failure is answered 404. -/
theorem getHandler_stat_error_counterexample :
    ((⟨fun _ => FileStatus.permDenied, []⟩ : FS).files
      (goJoin [strA "up", strA "2024", strA "03", strA "05", strA "x.png"]) =
        FileStatus.permDenied)
    ∧ (getHandler ⟨[], [], strA "up", strA "files", [], []⟩ (fun _ => [])
        (strA "2024") (strA "03") (strA "05") (strA "x.png")
        ⟨fun _ => FileStatus.permDenied, []⟩).status = 403 :=
  ⟨rfl, rfl⟩

/-- C5 (amended): only a stat failure of kind not-exist is answered 404;
a stat failure of any other kind is not intercepted by the handler and
falls through to the file server, which answers 403 for a permission
error and 500 for any other open error. -/
theorem getHandler_stat_mapping (cfg : Config) (mt : List Nat → List Nat)
    (y m d f : List Nat) (fs : FS) :
    (fs.files (goJoin [cfg.uploadDir, y, m, d, f]) = FileStatus.absent →
      (getHandler cfg mt y m d f fs).status = 404)
    ∧ (fs.files (goJoin [cfg.uploadDir, y, m, d, f]) = FileStatus.permDenied →
      (getHandler cfg mt y m d f fs).status = 403)
    ∧ (fs.files (goJoin [cfg.uploadDir, y, m, d, f]) = FileStatus.otherErr →
      (getHandler cfg mt y m d f fs).status = 500) := by
  refine ⟨fun h => ?_, fun h => ?_, fun h => ?_⟩ <;>
    simp [getHandler, h, serveFile, httpError]

theorem getHandler_stat_mapping_witness :
    ((getHandler ⟨[], [], strA "up", strA "files", [], []⟩ (fun _ => [])
      (strA "2024") (strA "03") (strA "05") (strA "a.txt")
      ⟨fun _ => FileStatus.absent, []⟩).status = 404)
    ∧ ((getHandler ⟨[], [], strA "up", strA "files", [], []⟩ (fun _ => [])
      (strA "2024") (strA "03") (strA "05") (strA "a.txt")
      ⟨fun _ => FileStatus.permDenied, []⟩).status = 403)
    ∧ ((getHandler ⟨[], [], strA "up", strA "files", [], []⟩ (fun _ => [])
      (strA "2024") (strA "03") (strA "05") (strA "a.txt")
      ⟨fun _ => FileStatus.otherErr, []⟩).status = 500) :=
  ⟨(getHandler_stat_mapping _ _ _ _ _ _ _).1 rfl,
   (getHandler_stat_mapping _ _ _ _ _ _ _).2.1 rfl,
   (getHandler_stat_mapping _ _ _ _ _ _ _).2.2 rfl⟩

/-- C6: the retrieval filesystem path is the upload root joined with the
four route segments with no re-validation of year, month or day: for ANY
ordinary segment values, numeric or not, the resolved path is literally
root slash year slash month slash day slash filename, and when no file
is at that path the response is 404. The segment hypotheses (nonempty,
slash-free, not dot or dotdot) mirror what the route variables can
deliver, since each variable matches one nonempty path segment and dot
segments are normalized away before dispatch. -/
theorem getHandler_join_no_validation (cfg : Config) (mt : List Nat → List Nat)
    (rooted : Bool) (upSegs : List (List Nat)) (y m d f : List Nat) (fs : FS)
    (hup : upSegs ≠ []) (hplain : ∀ s ∈ upSegs, PlainSeg s)
    (hdir : cfg.uploadDir = (if rooted then [47] else []) ++ joinSlash upSegs)
    (hy : PlainSeg y) (hm : PlainSeg m) (hd : PlainSeg d) (hf : PlainSeg f) :
    goJoin [cfg.uploadDir, y, m, d, f] =
      cfg.uploadDir ++ 47 :: (y ++ 47 :: (m ++ 47 :: (d ++ 47 :: f)))
    ∧ (fs.files (cfg.uploadDir ++ 47 :: (y ++ 47 :: (m ++ 47 :: (d ++ 47 :: f)))) =
        FileStatus.absent →
      (getHandler cfg mt y m d f fs).status = 404) := by
  obtain ⟨s0, rest0, rfl⟩ : ∃ s rest, upSegs = s :: rest := by
    cases upSegs with
    | nil => exact absurd rfl hup
    | cons s rest => exact ⟨s, rest, rfl⟩
  have hall : ∀ s ∈ s0 :: (rest0 ++ [y, m, d, f]), PlainSeg s := by
    intro s hs
    rcases List.mem_cons.mp hs with rfl | hs
    · exact hplain s (by simp)
    rcases List.mem_append.mp hs with h | h
    · exact hplain s (by simp [h])
    · simp at h; rcases h with rfl | rfl | rfl | rfl <;> assumption
  have hjoin : joinSlash (s0 :: (rest0 ++ [y, m, d, f])) =
      joinSlash (s0 :: rest0) ++ 47 :: (y ++ 47 :: (m ++ 47 :: (d ++ 47 :: f))) := by
    rw [← List.cons_append,
      joinSlash_append (s0 :: rest0) [y, m, d, f] (by simp) (by simp)]
    simp [joinSlash]
  have hdir2 : cfg.uploadDir = joinSlash (s0 :: rest0)
      ∨ cfg.uploadDir = 47 :: joinSlash (s0 :: rest0) := by
    rw [hdir]; cases rooted
    · left; simp
    · right; simp
  have hne : cfg.uploadDir ≠ [] := by
    rcases hdir2 with h | h <;> rw [h]
    · exact joinSlash_ne_nil s0 rest0 (hplain s0 (by simp)).1
    · simp
  have hpath : goJoin [cfg.uploadDir, y, m, d, f] =
      cfg.uploadDir ++ 47 :: (y ++ 47 :: (m ++ 47 :: (d ++ 47 :: f))) := by
    rw [goJoin_of_ne_nil _ _ hne]
    have hjs : joinSlash [cfg.uploadDir, y, m, d, f] =
        cfg.uploadDir ++ 47 :: (y ++ 47 :: (m ++ 47 :: (d ++ 47 :: f))) := by
      simp [joinSlash]
    rw [hjs]
    rcases hdir2 with h | h <;> rw [h]
    · rw [← hjoin]
      exact clean_plain (s0 :: (rest0 ++ [y, m, d, f])) (by simp) hall
    · rw [List.cons_append, ← hjoin]
      exact clean_plain_rooted (s0 :: (rest0 ++ [y, m, d, f])) (by simp) hall
  refine ⟨hpath, fun habs => ?_⟩
  simp [getHandler, hpath, habs, httpError]

theorem getHandler_join_no_validation_witness :
    goJoin [strA "up", strA "banana", strA "zz", strA "q", strA "note.txt"] =
      strA "up" ++ 47 :: (strA "banana" ++ 47 :: (strA "zz" ++ 47 :: (strA "q" ++ 47 :: strA "note.txt")))
    ∧ (getHandler ⟨[], [], strA "up", strA "files", [], []⟩ (fun _ => [])
        (strA "banana") (strA "zz") (strA "q") (strA "note.txt")
        ⟨fun _ => FileStatus.absent, []⟩).status = 404 := by
  have h := getHandler_join_no_validation ⟨[], [], strA "up", strA "files", [], []⟩
    (fun _ => []) false [strA "up"] (strA "banana") (strA "zz") (strA "q")
    (strA "note.txt") ⟨fun _ => FileStatus.absent, []⟩
    (by decide) (by decide) (by decide) (by decide) (by decide) (by decide) (by decide)
  exact ⟨h.1, h.2 rfl⟩

/-- C8: a retrieval whose file exists is answered 200 with Content-Type
derived from the filename extension through the extension table with the
application/octet-stream fallback, the exact Cache-Control value
public, max-age=315360000, and the exact Content-Disposition value
inline; filename="<filename>" carrying the requested filename. -/
theorem getHandler_success_headers (cfg : Config) (mt : List Nat → List Nat)
    (y m d f : List Nat) (fs : FS) (content : List Nat)
    (hp : fs.files (goJoin [cfg.uploadDir, y, m, d, f]) = FileStatus.present content) :
    getHandler cfg mt y m d f fs =
      { status := 200,
        headers := [(strA "Content-Type",
            if mt (goExt f) = [] then strA "application/octet-stream" else mt (goExt f)),
          (strA "Cache-Control", strA "public, max-age=315360000"),
          (strA "Content-Disposition", strA "inline; filename=\"" ++ f ++ [34])],
        body := content } := by
  simp [getHandler, hp, serveFile]

theorem getHandler_success_headers_witness :
    getHandler ⟨[], [], strA "up", strA "files", [], []⟩
      (fun e => if e = strA ".png" then strA "image/png" else [])
      (strA "2024") (strA "03") (strA "05") (strA "x.png")
      ⟨fun p => if p = strA "up/2024/03/05/x.png" then FileStatus.present [5, 6] else FileStatus.absent, []⟩ =
      { status := 200,
        headers := [(strA "Content-Type",
            if (fun e => if e = strA ".png" then strA "image/png" else [])
              (goExt (strA "x.png")) = []
            then strA "application/octet-stream"
            else (fun e => if e = strA ".png" then strA "image/png" else [])
              (goExt (strA "x.png"))),
          (strA "Cache-Control", strA "public, max-age=315360000"),
          (strA "Content-Disposition", strA "inline; filename=\"" ++ strA "x.png" ++ [34])],
        body := [5, 6] } :=
  getHandler_success_headers _ _ _ _ _ _ _ _ (by decide)

end FileServer
